import Mathlib

/-!
Shallow embedding of the kanban drag-and-drop move workflow of
kanban-flow-orchestrator.

The authoritative source is the `useOpportunityDrag` hook
(`handleOpportunityDrag` and `completeOpportunityMove`): remote calls
(`opportunityAPI.update` / `.move` / `.getByStageId`,
`requiredElementsService.processStageRequirements`) are modelled by an
oracle that says whether each call succeeds and what it returns, and each
execution is embedded as a pure function producing the final in-memory
stage list together with an ordered trace of observable events (API calls,
`setStages`, toasts, `setIsDragging` transitions).

The `Stage` / `Opportunity` record types and the requirement-evaluator
predicates come from modules that are not part of the provided sources;
those are modelled from the specification and marked as such in their doc
comments.
-/

/-- Modelled from the spec: a required field of a stage (`RequiredField` in
the repository's `@/types` module, which is not among the provided
sources): id, name and an `isRequired` flag. -/
structure RequiredField where
  id : String
  name : String
  isRequired : Bool
deriving Repr, DecidableEq

/-- Modelled from the spec: a required task of a stage (`RequiredTask` in
the repository's `@/types` module): id, name and an `isRequired` flag. -/
structure RequiredTask where
  id : String
  name : String
  isRequired : Bool
deriving Repr, DecidableEq

/-- Modelled from the spec: an opportunity record (`Opportunity` in the
repository's `@/types` module), restricted to the fields the move workflow
reads or writes: id, current stage id, last-stage-change timestamp
(modelled as a `Nat` clock value), the custom-field map, the
completed-tasks list, and the optional win/loss reasons. -/
structure Opportunity where
  id : String
  stageId : String
  lastStageChangeAt : Nat
  customFields : List (String × String)
  completedTasks : List String
  winReason : Option String
  lossReason : Option String
deriving Repr, DecidableEq

/-- Modelled from the spec: a stage record (`Stage` in the repository's
`@/types` module) with the fields the workflow uses: id, name, ordering
index, win/loss flags, reason-required flags, required fields/tasks and
the stage's current opportunity list. -/
structure Stage where
  id : String
  name : String
  order : Nat
  isWinStage : Bool
  isLossStage : Bool
  winReasonRequired : Bool
  lossReasonRequired : Bool
  requiredFields : List RequiredField
  requiredTasks : List RequiredTask
  opportunities : List Opportunity
deriving Repr, DecidableEq

/-- A `Partial<Opportunity>` as supplied by the required-fields / reason
dialogs: every field optional, a present field overrides the base record
when spread over it. -/
structure OpportunityPatch where
  stageId : Option String := none
  lastStageChangeAt : Option Nat := none
  customFields : Option (List (String × String)) := none
  completedTasks : Option (List String) := none
  winReason : Option (Option String) := none
  lossReason : Option (Option String) := none
deriving Repr, DecidableEq

/-- JavaScript object spread `{ ...opportunity, ...patch }`: each field
present on the patch overrides the base opportunity. -/
def applyPatch (o : Opportunity) (p : OpportunityPatch) : Opportunity :=
  { o with
    stageId := p.stageId.getD o.stageId
    lastStageChangeAt := p.lastStageChangeAt.getD o.lastStageChangeAt
    customFields := p.customFields.getD o.customFields
    completedTasks := p.completedTasks.getD o.completedTasks
    winReason := p.winReason.getD o.winReason
    lossReason := p.lossReason.getD o.lossReason }

/-- The argument object of `opportunityAPI.update(opportunity.id,
{ stageId: destinationStageId, ...updatedOpportunity })`: the spread puts
the patch after the `stageId` key, so a `stageId` present on the patch
wins over the destination stage id. -/
def updatePayload (destinationStageId : String) (p : OpportunityPatch) : OpportunityPatch :=
  { p with stageId := some (p.stageId.getD destinationStageId) }

/-- Observable events of one execution of the hook, in program order:
remote API calls, the stage-requirements call, `setStages`, toasts, the
revert-failure log line and the `setIsDragging` transitions. -/
inductive MoveEvent where
  | setDragging (b : Bool)
  | apiUpdate (oppId : String) (payload : OpportunityPatch)
  | apiMove (oppId : String) (destinationStageId : String)
  | processRequirements (opp : Opportunity) (destinationStageId : String)
  | setStages (stages : List Stage)
  | apiGetByStageId (stageId : String)
  | toastLoading
  | toastDismiss
  | toastSuccess
  | toastError
  | logRevertError
deriving Repr, DecidableEq

/-- Oracle for the remote collaborators: whether `opportunityAPI.update`
and `opportunityAPI.move` succeed, what
`requiredElementsService.processStageRequirements` does (`none` = the call
throws, `some none` = it returns null, `some (some o)` = it returns `o`),
what `opportunityAPI.getByStageId` returns per stage (`none` = the call
throws), and the current clock value used for `new Date()`. -/
structure RemoteOracle where
  updateOk : Bool
  moveOk : Bool
  process : Opportunity → String → Option (Option Opportunity)
  refetch : String → Option (List Opportunity)
  now : Nat

/-- Result of one execution of `completeOpportunityMove`: the in-memory
stage list after the execution (the argument of the last `setStages`, or
the unchanged input when `setStages` was never called), the ordered event
trace, and whether the move committed. -/
structure MoveResult where
  stages : List Stage
  events : List MoveEvent
  success : Bool
deriving Repr, DecidableEq

/-- `{ ...opportunity, ...updatedOpportunity }` when a patch was supplied,
the opportunity unchanged otherwise (`opportunityToMove` in the source). -/
def mergedOpportunity (opportunity : Opportunity) (upd : Option OpportunityPatch) : Opportunity :=
  match upd with
  | some p => applyPatch opportunity p
  | none => opportunity

/-- The remote persistence call the commit makes: the full
`opportunityAPI.update` with the spread payload when a patch was supplied,
the lightweight `opportunityAPI.move` otherwise. -/
def persistEvent (opportunity : Opportunity) (destinationStageId : String)
    (upd : Option OpportunityPatch) : MoveEvent :=
  match upd with
  | some p => MoveEvent.apiUpdate opportunity.id (updatePayload destinationStageId p)
  | none => MoveEvent.apiMove opportunity.id destinationStageId

/-- Whether the persistence call the commit makes succeeds under the
oracle. -/
def persistOk (oracle : RemoteOracle) (upd : Option OpportunityPatch) : Bool :=
  match upd with
  | some _ => oracle.updateOk
  | none => oracle.moveOk

/-- The opportunity as passed to the stage-requirements processor:
`{ ...opportunityToMove, stageId: destinationStageId }`. -/
def stampedOpportunity (opportunity : Opportunity) (destinationStageId : String)
    (upd : Option OpportunityPatch) : Opportunity :=
  { mergedOpportunity opportunity upd with stageId := destinationStageId }

/-- JavaScript `array.splice(i, 0, x)`: insert `x` at index `i`, clamped
to the end of the list when `i` exceeds its length. -/
def spliceInsert {α : Type} (l : List α) (i : Nat) (x : α) : List α :=
  l.take i ++ x :: l.drop i

/-- The record inserted into the destination stage (`updatedOpp` in the
source): the final opportunity stamped with the destination stage id and
a fresh last-stage-change timestamp. -/
def movedRecord (finalOpportunity : Opportunity) (destinationStageId : String)
    (now : Nat) : Opportunity :=
  { finalOpportunity with stageId := destinationStageId, lastStageChangeAt := now }

/-- The optimistic state patch of `completeOpportunityMove` (the
`stages.map` at its end): the opportunity is filtered out of the stage
whose id equals the source stage id, spliced into the stage whose id
equals the destination stage id (stamped with the destination stage id
and a fresh timestamp), and every other stage is returned unchanged. The
source branch is checked first, so when source and destination coincide
only the removal happens. -/
def patchStages (stages : List Stage) (sourceStageId destinationStageId oppId : String)
    (finalOpportunity : Opportunity) (destinationIndex : Nat) (now : Nat) : List Stage :=
  stages.map fun stage =>
    if stage.id = sourceStageId then
      { stage with opportunities := stage.opportunities.filter (fun o => o.id != oppId) }
    else if stage.id = destinationStageId then
      { stage with
        opportunities :=
          spliceInsert stage.opportunities destinationIndex
            (movedRecord finalOpportunity destinationStageId now) }
    else stage

/-- The rollback refetch: `opportunityAPI.getByStageId` for every stage
(fired by `Promise.all`); `none` when any of the refetches throws. -/
def refetchStages (oracle : RemoteOracle) (stages : List Stage) : Option (List Stage) :=
  stages.mapM fun s => (oracle.refetch s.id).map fun opps => { s with opportunities := opps }

/-- The `catch` block of `completeOpportunityMove`: dismiss the loading
toast, show the error toast (already in `firstEvents`), refetch every
stage's opportunity list, and either replace the local state with the
fetched lists or, when the refetch itself throws, log the revert error
and leave the state unchanged. -/
def rollbackMove (oracle : RemoteOracle) (stages : List Stage)
    (firstEvents : List MoveEvent) : MoveResult :=
  let fetchEvents := stages.map fun s => MoveEvent.apiGetByStageId s.id
  match refetchStages oracle stages with
  | some fetched =>
    { stages := fetched
      events := firstEvents ++ fetchEvents ++ [MoveEvent.setStages fetched, MoveEvent.setDragging false]
      success := false }
  | none =>
    { stages := stages
      events := firstEvents ++ fetchEvents ++ [MoveEvent.logRevertError, MoveEvent.setDragging false]
      success := false }

/-- Embedding of `completeOpportunityMove` from the `useOpportunityDrag`
hook. `isInFlight` is the hook's `isDragging` flag at call time; the
source closure has it in scope but never reads it (it only writes it via
`setIsDragging`), so the body ignores the argument. Steps, in source
order: set the flag, merge the patch, persist remotely (update or move),
process stage requirements, compute the final opportunity
(`processedOpportunity || merged-with-destination-stage`), optimistically
patch the stage list, set it, toast; on any failure, toast the error and
roll back by refetching every stage. -/
def completeOpportunityMove (oracle : RemoteOracle) (stages : List Stage)
    (isInFlight : Bool) (opportunity : Opportunity)
    (sourceStageId destinationStageId : String) (destinationIndex : Nat)
    (upd : Option OpportunityPatch) : MoveResult :=
  let _ := isInFlight
  let stamped := stampedOpportunity opportunity destinationStageId upd
  if persistOk oracle upd then
    match oracle.process stamped destinationStageId with
    | some processed =>
      let finalOpportunity := processed.getD stamped
      let updatedStages :=
        patchStages stages sourceStageId destinationStageId opportunity.id
          finalOpportunity destinationIndex oracle.now
      { stages := updatedStages
        events := [MoveEvent.setDragging true, persistEvent opportunity destinationStageId upd,
                   MoveEvent.processRequirements stamped destinationStageId,
                   MoveEvent.setStages updatedStages,
                   MoveEvent.toastDismiss, MoveEvent.toastSuccess, MoveEvent.setDragging false]
        success := true }
    | none =>
      rollbackMove oracle stages
        [MoveEvent.setDragging true, persistEvent opportunity destinationStageId upd,
         MoveEvent.processRequirements stamped destinationStageId,
         MoveEvent.toastDismiss, MoveEvent.toastError]
  else
    rollbackMove oracle stages
      [MoveEvent.setDragging true, persistEvent opportunity destinationStageId upd,
       MoveEvent.toastDismiss, MoveEvent.toastError]

/-- Modelled from the spec: the Requirement Evaluator's missing-fields
check (the evaluator lives in `useDragOperationHandler`, which is not
among the provided sources): required fields of the destination stage
whose corresponding custom-field value is absent or empty on the
opportunity. -/
def missingRequiredFields (opp : Opportunity) (dest : Stage) : List RequiredField :=
  dest.requiredFields.filter fun f =>
    f.isRequired && match opp.customFields.lookup f.name with
      | some v => v == ""
      | none => true

/-- Modelled from the spec: the Requirement Evaluator's missing-tasks
check: required tasks of the destination stage not present in the
opportunity's completed-tasks list. -/
def missingRequiredTasks (opp : Opportunity) (dest : Stage) : List RequiredTask :=
  dest.requiredTasks.filter fun t =>
    t.isRequired && ! opp.completedTasks.contains t.name

/-- Modelled from the spec: the Requirement Evaluator's reason check: the
destination stage is a win (resp. loss) stage with its reason-required
flag set and the opportunity lacks that reason. -/
def needsWinLossReason (opp : Opportunity) (dest : Stage) : Bool :=
  (dest.isWinStage && dest.winReasonRequired && opp.winReason.isNone)
  || (dest.isLossStage && dest.lossReasonRequired && opp.lossReason.isNone)

/-- The transient drag-operation descriptor: move coordinates plus the
Requirement Evaluator's verdict. -/
structure DragOperation where
  opportunity : Opportunity
  sourceStageId : String
  destinationStage : Stage
  destinationIndex : Nat
  missingFields : List RequiredField
  missingTasks : List RequiredTask
  needsReason : Bool
deriving Repr, DecidableEq

/-- Modelled from the spec: `createDragOperation` of
`useDragOperationHandler` packages the Requirement Evaluator's verdict
with the move coordinates. -/
def createDragOperation (opp : Opportunity) (sourceStageId : String) (dest : Stage)
    (destinationIndex : Nat) : DragOperation :=
  { opportunity := opp
    sourceStageId := sourceStageId
    destinationStage := dest
    destinationIndex := destinationIndex
    missingFields := missingRequiredFields opp dest
    missingTasks := missingRequiredTasks opp dest
    needsReason := needsWinLossReason opp dest }

/-- Modelled from the spec: `hasRequirements` — the union of the three
checks is non-empty. -/
def hasRequirements (op : DragOperation) : Bool :=
  ! op.missingFields.isEmpty || ! op.missingTasks.isEmpty || op.needsReason

/-- Modelled from the spec: `requiresOnlyReasons` — the reason requirement
holds and the missing-fields and missing-tasks lists are both empty. -/
def requiresOnlyReasons (op : DragOperation) : Bool :=
  op.needsReason && op.missingFields.isEmpty && op.missingTasks.isEmpty

/-- The dialog `handleOpportunityDrag` requests: the reason-only prompt
(`setShowRequiredFieldsDialog('reason')`) or the full required-fields form
(`setShowRequiredFieldsDialog(true)`), each with the pending drag
operation stored via `setCurrentDragOperation`. -/
inductive DialogRequest where
  | reasonOnly (op : DragOperation)
  | requiredFieldsForm (op : DragOperation)
deriving Repr, DecidableEq

/-- Result of one execution of `handleOpportunityDrag`: the resulting
in-memory stage list, the event trace, and the dialog requested (if
any). -/
structure DragResult where
  stages : List Stage
  events : List MoveEvent
  dialog : Option DialogRequest
deriving Repr, DecidableEq

/-- Embedding of `handleOpportunityDrag` from the `useOpportunityDrag`
hook: look up the source and destination stages and the dragged
opportunity (aborting with an error toast when any lookup fails), build
the drag operation, and either surface the reason-only prompt, surface the
full required-fields dialog, or complete the move directly. `isInFlight`
is the hook's `isDragging` flag at call time, never read by the source. -/
def handleOpportunityDrag (oracle : RemoteOracle) (stages : List Stage)
    (isInFlight : Bool) (draggableId sourceDroppableId destinationDroppableId : String)
    (destinationIndex : Nat) : DragResult :=
  let opportunityId := draggableId
  match stages.find? fun s => s.id == sourceDroppableId with
  | none => { stages := stages, events := [MoveEvent.toastError], dialog := none }
  | some sourceStage =>
    match stages.find? fun s => s.id == destinationDroppableId with
    | none => { stages := stages, events := [MoveEvent.toastError], dialog := none }
    | some destinationStage =>
      match sourceStage.opportunities.find? fun o => o.id == opportunityId with
      | none => { stages := stages, events := [MoveEvent.toastError], dialog := none }
      | some opportunity =>
        let dragOperation :=
          createDragOperation opportunity sourceDroppableId destinationStage destinationIndex
        if hasRequirements dragOperation then
          if requiresOnlyReasons dragOperation then
            { stages := stages
              events := [MoveEvent.toastLoading, MoveEvent.toastDismiss]
              dialog := some (DialogRequest.reasonOnly dragOperation) }
          else
            { stages := stages
              events := [MoveEvent.toastLoading, MoveEvent.toastDismiss]
              dialog := some (DialogRequest.requiredFieldsForm dragOperation) }
        else
          let r := completeOpportunityMove oracle stages isInFlight opportunity
            sourceDroppableId destinationDroppableId destinationIndex none
          { stages := r.stages, events := MoveEvent.toastLoading :: r.events, dialog := none }

/-- The values of the stage-edit form (`z.infer<typeof formSchema>` in the
edit-stage dialog): optional fields are `Option`, matching zod's
`.optional()`. -/
structure StageFormValues where
  name : String
  description : Option String
  color : String
  isWinStage : Option Bool
  isLossStage : Option Bool
deriving Repr, DecidableEq

/-- One hexadecimal digit, upper or lower case (the regex character class
of the color pattern, which carries the `i` flag). -/
def isHexDigit (c : Char) : Bool :=
  c.isDigit || ('a' ≤ c && c ≤ 'f') || ('A' ≤ c && c ≤ 'F')

/-- The color pattern of the stage-edit schema: a `#` followed by exactly
three or exactly six hexadecimal digits, case-insensitive. -/
def validColor (s : String) : Bool :=
  match s.data with
  | '#' :: rest => (rest.length == 3 || rest.length == 6) && rest.all isHexDigit
  | _ => false

/-- Embedding of `formSchema` from the edit-stage dialog: the name must
have at least two characters, the color must match the hex pattern, and
the refinement rejects values where both `isWinStage` and `isLossStage`
are truthy (an absent optional boolean is falsy, as in JavaScript). -/
def formSchemaAccepts (v : StageFormValues) : Bool :=
  decide (2 ≤ v.name.length)
  && validColor v.color
  && ! (v.isWinStage.getD false && v.isLossStage.getD false)

/-- Modelled from the spec: the dialog submits through
`form.handleSubmit(onSubmit)` with the zod resolver (the form library is
an external collaborator), which invokes the persisting `onSubmit`
callback exactly when the schema accepts the submitted values; `none`
means the submission was rejected and nothing was persisted. -/
def submitStageEdit (v : StageFormValues) : Option StageFormValues :=
  if formSchemaAccepts v then some v else none

/-! Concrete fixtures used to instantiate the theorems below. -/

/-- A concrete opportunity sitting in stage `s1`. -/
def oppA : Opportunity :=
  { id := "o1", stageId := "s1", lastStageChangeAt := 0, customFields := []
    completedTasks := [], winReason := none, lossReason := none }

/-- A concrete ordinary stage holding `oppA`. -/
def stageA : Stage :=
  { id := "s1", name := "A", order := 0, isWinStage := false, isLossStage := false
    winReasonRequired := false, lossReasonRequired := false
    requiredFields := [], requiredTasks := [], opportunities := [oppA] }

/-- A concrete ordinary empty destination stage. -/
def stageB : Stage :=
  { id := "s2", name := "B", order := 1, isWinStage := false, isLossStage := false
    winReasonRequired := false, lossReasonRequired := false
    requiredFields := [], requiredTasks := [], opportunities := [] }

/-- A concrete win stage requiring a win reason. -/
def stageWin : Stage :=
  { id := "s3", name := "Won", order := 2, isWinStage := true, isLossStage := false
    winReasonRequired := true, lossReasonRequired := false
    requiredFields := [], requiredTasks := [], opportunities := [] }

/-- A concrete stage with one required field named `budget`. -/
def stageBudget : Stage :=
  { id := "s4", name := "Budget", order := 3, isWinStage := false, isLossStage := false
    winReasonRequired := false, lossReasonRequired := false
    requiredFields := [{ id := "f1", name := "budget", isRequired := true }]
    requiredTasks := [], opportunities := [] }

/-- An oracle on which every remote call succeeds, the requirements
processor returns null and every refetch returns an empty list. -/
def oracleOk : RemoteOracle :=
  { updateOk := true, moveOk := true, process := fun _ _ => some none
    refetch := fun _ => some [], now := 42 }

/-- An oracle on which the lightweight move call fails and the rollback
refetches succeed. -/
def oracleMoveFail : RemoteOracle :=
  { updateOk := true, moveOk := false, process := fun _ _ => some none
    refetch := fun sid => if sid = "s1" then some [oppA] else some [], now := 42 }

/-- An oracle on which the move call fails and the rollback refetch also
throws. -/
def oracleRevertFail : RemoteOracle :=
  { updateOk := true, moveOk := false, process := fun _ _ => some none
    refetch := fun _ => none, now := 42 }

/-! Claim theorems. -/

/-- C6: when the source stage id, the destination stage id, or the dragged
opportunity cannot be found in local state, `handleOpportunityDrag`
returns with the stage list unchanged, an error toast as its only
observable event (in particular no remote call), and no dialog. -/
theorem drag_lookup_error_aborts (oracle : RemoteOracle) (stages : List Stage) (b : Bool)
    (draggableId src dst : String) (idx : Nat)
    (h : stages.find? (fun s => s.id == src) = none
      ∨ stages.find? (fun s => s.id == dst) = none
      ∨ ∃ ss ds, stages.find? (fun s => s.id == src) = some ss
          ∧ stages.find? (fun s => s.id == dst) = some ds
          ∧ ss.opportunities.find? (fun o => o.id == draggableId) = none) :
    handleOpportunityDrag oracle stages b draggableId src dst idx =
      { stages := stages, events := [MoveEvent.toastError], dialog := none } := by
  rcases h with h | h | ⟨ss, ds, h1, h2, h3⟩
  · simp [handleOpportunityDrag, h]
  · cases hfind : stages.find? fun s => s.id == src with
    | none => simp [handleOpportunityDrag, hfind]
    | some ss => simp [handleOpportunityDrag, hfind, h]
  · simp [handleOpportunityDrag, h1, h2, h3]

/-- C6 witness: dragging an unknown opportunity id out of `s1` aborts with
an error toast and no state change. -/
theorem drag_lookup_error_aborts_witness :
    handleOpportunityDrag oracleOk [stageA, stageB] false "ghost" "s1" "s2" 0 =
      { stages := [stageA, stageB], events := [MoveEvent.toastError], dialog := none } :=
  drag_lookup_error_aborts oracleOk [stageA, stageB] false "ghost" "s1" "s2" 0
    (Or.inr (Or.inr ⟨stageA, stageB, by decide, by decide, by decide⟩))

/-- C1: dialog routing of `handleOpportunityDrag` is determined exactly by
the drag operation's requirement verdict: no unmet requirement means the
move completes directly with no dialog; a verdict requiring only a
win/loss reason surfaces the reason-only prompt; a verdict with at least
one missing required field surfaces the full required-fields dialog,
never the reason-only prompt. -/
theorem drag_dialog_routing (oracle : RemoteOracle) (stages : List Stage) (b : Bool)
    (draggableId src dst : String) (idx : Nat) (ss ds : Stage) (opp : Opportunity)
    (hs : stages.find? (fun s => s.id == src) = some ss)
    (hd : stages.find? (fun s => s.id == dst) = some ds)
    (ho : ss.opportunities.find? (fun o => o.id == draggableId) = some opp) :
    (hasRequirements (createDragOperation opp src ds idx) = false →
      handleOpportunityDrag oracle stages b draggableId src dst idx =
        { stages := (completeOpportunityMove oracle stages b opp src dst idx none).stages
          events :=
            MoveEvent.toastLoading :: (completeOpportunityMove oracle stages b opp src dst idx none).events
          dialog := none })
    ∧ (requiresOnlyReasons (createDragOperation opp src ds idx) = true →
        handleOpportunityDrag oracle stages b draggableId src dst idx =
          { stages := stages
            events := [MoveEvent.toastLoading, MoveEvent.toastDismiss]
            dialog := some (DialogRequest.reasonOnly (createDragOperation opp src ds idx)) })
    ∧ ((createDragOperation opp src ds idx).missingFields ≠ [] →
        handleOpportunityDrag oracle stages b draggableId src dst idx =
          { stages := stages
            events := [MoveEvent.toastLoading, MoveEvent.toastDismiss]
            dialog := some (DialogRequest.requiredFieldsForm (createDragOperation opp src ds idx)) }) := by
  refine ⟨fun h => ?_, fun h => ?_, fun h => ?_⟩
  · simp [handleOpportunityDrag, hs, hd, ho, h]
  · have hr : hasRequirements (createDragOperation opp src ds idx) = true := by
      simp only [requiresOnlyReasons, Bool.and_eq_true] at h
      simp [hasRequirements, h.1]
    simp [handleOpportunityDrag, hs, hd, ho, hr, h]
  · have hne : (createDragOperation opp src ds idx).missingFields.isEmpty = false := by
      simpa [List.isEmpty_iff] using h
    have hr : hasRequirements (createDragOperation opp src ds idx) = true := by
      simp [hasRequirements, hne]
    have hro : requiresOnlyReasons (createDragOperation opp src ds idx) = false := by
      simp [requiresOnlyReasons, hne]
    simp [handleOpportunityDrag, hs, hd, ho, hr, hro]

/-- C1 witness: dragging `o1` into the reason-requiring win stage `s3`
(all fields and tasks satisfied) surfaces the reason-only prompt. -/
theorem drag_dialog_routing_witness :
    handleOpportunityDrag oracleOk [stageA, stageWin] false "o1" "s1" "s3" 0 =
      { stages := [stageA, stageWin]
        events := [MoveEvent.toastLoading, MoveEvent.toastDismiss]
        dialog := some (DialogRequest.reasonOnly (createDragOperation oppA "s1" stageWin 0)) } :=
  (drag_dialog_routing oracleOk [stageA, stageWin] false "o1" "s1" "s3" 0 stageA stageWin oppA
    (by decide) (by decide) (by decide)).2.1 (by decide)

/-- C7 counterexample: the in-flight flag does not prevent overlapping
executions. With `isDragging = true` (a first move's commit in flight), a
further call to `completeOpportunityMove` still starts its own commit at
once: its trace issues the remote move call and the commit succeeds, so
nothing waits for or queues behind the first move. -/
theorem overlapping_move_not_blocked :
    (completeOpportunityMove oracleOk [stageA, stageB] true oppA "s1" "s2" 0 none).events[1]? =
      some (MoveEvent.apiMove "o1" "s2")
    ∧ (completeOpportunityMove oracleOk [stageA, stageB] true oppA "s1" "s2" 0 none).success = true := by
  decide

/-- C7 amended: `isDragging` is written (set on commit start, cleared at
its end) but never read by either function, so a call made while a move
is in flight behaves exactly as one made while idle and always issues its
remote persistence call immediately; mutual exclusion is left entirely to
the UI consumer of the flag. -/
theorem isDragging_never_consulted (oracle : RemoteOracle) (stages : List Stage)
    (opportunity : Opportunity) (src dst : String) (idx : Nat)
    (upd : Option OpportunityPatch) (b b' : Bool) :
    completeOpportunityMove oracle stages b opportunity src dst idx upd =
      completeOpportunityMove oracle stages b' opportunity src dst idx upd
    ∧ (completeOpportunityMove oracle stages b opportunity src dst idx upd).events[0]? =
        some (MoveEvent.setDragging true)
    ∧ (∃ es, (completeOpportunityMove oracle stages b opportunity src dst idx upd).events =
        es ++ [MoveEvent.setDragging false])
    ∧ persistEvent opportunity dst upd ∈
        (completeOpportunityMove oracle stages b opportunity src dst idx upd).events := by
  refine ⟨rfl, ?_, ?_, ?_⟩
  · unfold completeOpportunityMove rollbackMove
    cases hpk : persistOk oracle upd <;>
      simp only [Bool.false_eq_true, if_false, if_true, reduceIte] <;>
      (cases hpr : oracle.process (stampedOpportunity opportunity dst upd) dst <;>
        cases hrf : refetchStages oracle stages <;>
        simp [hrf])
  · unfold completeOpportunityMove rollbackMove
    cases hpk : persistOk oracle upd
    · simp only [Bool.false_eq_true, reduceIte]
      cases hrf : refetchStages oracle stages with
      | none =>
        exact ⟨MoveEvent.setDragging true :: persistEvent opportunity dst upd ::
          MoveEvent.toastDismiss :: MoveEvent.toastError ::
          ((stages.map fun s => MoveEvent.apiGetByStageId s.id) ++ [MoveEvent.logRevertError]),
          by simp⟩
      | some fetched =>
        exact ⟨MoveEvent.setDragging true :: persistEvent opportunity dst upd ::
          MoveEvent.toastDismiss :: MoveEvent.toastError ::
          ((stages.map fun s => MoveEvent.apiGetByStageId s.id) ++ [MoveEvent.setStages fetched]),
          by simp⟩
    · simp only [reduceIte]
      cases hpr : oracle.process (stampedOpportunity opportunity dst upd) dst with
      | none =>
        cases hrf : refetchStages oracle stages with
        | none =>
          exact ⟨MoveEvent.setDragging true :: persistEvent opportunity dst upd ::
            MoveEvent.processRequirements (stampedOpportunity opportunity dst upd) dst ::
            MoveEvent.toastDismiss :: MoveEvent.toastError ::
            ((stages.map fun s => MoveEvent.apiGetByStageId s.id) ++ [MoveEvent.logRevertError]),
            by simp⟩
        | some fetched =>
          exact ⟨MoveEvent.setDragging true :: persistEvent opportunity dst upd ::
            MoveEvent.processRequirements (stampedOpportunity opportunity dst upd) dst ::
            MoveEvent.toastDismiss :: MoveEvent.toastError ::
            ((stages.map fun s => MoveEvent.apiGetByStageId s.id) ++ [MoveEvent.setStages fetched]),
            by simp⟩
      | some processed =>
        exact ⟨[MoveEvent.setDragging true, persistEvent opportunity dst upd,
          MoveEvent.processRequirements (stampedOpportunity opportunity dst upd) dst,
          MoveEvent.setStages
            (patchStages stages src dst opportunity.id
              (processed.getD (stampedOpportunity opportunity dst upd)) idx oracle.now),
          MoveEvent.toastDismiss, MoveEvent.toastSuccess], by simp⟩
  · unfold completeOpportunityMove rollbackMove
    cases hpk : persistOk oracle upd <;>
      simp only [Bool.false_eq_true, if_false, if_true, reduceIte] <;>
      (cases hpr : oracle.process (stampedOpportunity opportunity dst upd) dst <;>
        cases hrf : refetchStages oracle stages <;>
        simp [hrf])

/-- The persistence call event is an API-call constructor, never a
`setStages` event. -/
theorem persistEvent_ne_setStages (opportunity : Opportunity) (dst : String)
    (upd : Option OpportunityPatch) (s' : List Stage) :
    persistEvent opportunity dst upd ≠ MoveEvent.setStages s' := by
  cases upd <;> simp [persistEvent]

/-- In a trace whose first two events are not `setStages`, any `setStages`
event sits at index two or later. -/
theorem setStages_index_ge_two (e0 e1 : MoveEvent) (rest : List MoveEvent)
    (k : Nat) (s' : List Stage)
    (h : (e0 :: e1 :: rest)[k]? = some (MoveEvent.setStages s'))
    (h0 : ∀ t, e0 ≠ MoveEvent.setStages t) (h1 : ∀ t, e1 ≠ MoveEvent.setStages t) : 1 < k := by
  match k with
  | 0 => simp at h; exact absurd h (h0 s')
  | 1 => simp at h; exact absurd h (h1 s')
  | (n + 2) => omega

/-- C3: the local stage list is never replaced before remote persistence:
every `setStages` event in a commit's trace occurs strictly after the
remote persistence call (which sits at trace index 1); the commit succeeds
exactly when the persistence call and the requirements processing both
return without error; and when the persistence call is rejected the
resulting stage list is either the unchanged input or the backend's
refetched lists — never the optimistic patch. -/
theorem move_patch_only_after_persist (oracle : RemoteOracle) (stages : List Stage) (b : Bool)
    (opportunity : Opportunity) (src dst : String) (idx : Nat) (upd : Option OpportunityPatch) :
    (∀ k : Nat, ∀ s' : List Stage,
        (completeOpportunityMove oracle stages b opportunity src dst idx upd).events[k]? =
          some (MoveEvent.setStages s') →
        1 < k ∧ (completeOpportunityMove oracle stages b opportunity src dst idx upd).events[1]? =
          some (persistEvent opportunity dst upd))
    ∧ ((completeOpportunityMove oracle stages b opportunity src dst idx upd).success = true ↔
        persistOk oracle upd = true ∧
          ∃ processed, oracle.process (stampedOpportunity opportunity dst upd) dst = some processed)
    ∧ (persistOk oracle upd = false →
        (completeOpportunityMove oracle stages b opportunity src dst idx upd).stages = stages
        ∨ ∃ fetched, refetchStages oracle stages = some fetched ∧
            (completeOpportunityMove oracle stages b opportunity src dst idx upd).stages = fetched) := by
  refine ⟨?_, ?_, ?_⟩
  · unfold completeOpportunityMove rollbackMove
    cases hpk : persistOk oracle upd <;>
      simp only [Bool.false_eq_true, reduceIte] <;>
      (cases hpr : oracle.process (stampedOpportunity opportunity dst upd) dst <;>
        cases hrf : refetchStages oracle stages <;>
        simp only [hrf] <;>
        intro k s' h <;>
        exact ⟨setStages_index_ge_two _ _ _ k s'
          (by simpa only [List.cons_append, List.nil_append] using h) (by simp)
          (fun t => persistEvent_ne_setStages opportunity dst upd t), by simp⟩)
  · unfold completeOpportunityMove rollbackMove
    cases hpk : persistOk oracle upd <;>
      simp only [Bool.false_eq_true, reduceIte] <;>
      (cases hpr : oracle.process (stampedOpportunity opportunity dst upd) dst <;>
        cases hrf : refetchStages oracle stages <;>
        simp [hrf, hpk, hpr])
  · intro hfa
    unfold completeOpportunityMove rollbackMove
    simp only [hfa, Bool.false_eq_true, reduceIte]
    cases hrf : refetchStages oracle stages with
    | none => exact Or.inl rfl
    | some fetched => exact Or.inr ⟨fetched, rfl, rfl⟩

/-- C3 witness: in a concrete successful commit the optimistic `setStages`
sits at trace index 3, strictly after the remote move call at index 1. -/
theorem move_patch_only_after_persist_witness :
    1 < 3 ∧ (completeOpportunityMove oracleOk [stageA, stageB] false oppA "s1" "s2" 0 none).events[1]? =
      some (persistEvent oppA "s2" none) :=
  (move_patch_only_after_persist oracleOk [stageA, stageB] false oppA "s1" "s2" 0 none).1 3
    (patchStages [stageA, stageB] "s1" "s2" "o1" (stampedOpportunity oppA "s2" none) 0 42)
    (by decide)

/-- C4: a commit performs its steps in order: the remote persistence call
is trace event 1 (the full update call with the spread payload when a
patch was supplied, the lightweight move call otherwise), the
stage-requirements call on the opportunity stamped with the destination
stage id is trace event 2, and when the processor returns, the effective
final opportunity used in the optimistic patch is the processed result
when it is non-null and the locally merged, stamped opportunity
otherwise. -/
theorem move_commit_step_order (oracle : RemoteOracle) (stages : List Stage) (b : Bool)
    (opportunity : Opportunity) (src dst : String) (idx : Nat) (upd : Option OpportunityPatch)
    (hok : persistOk oracle upd = true) :
    (completeOpportunityMove oracle stages b opportunity src dst idx upd).events[1]? =
      some (persistEvent opportunity dst upd)
    ∧ (completeOpportunityMove oracle stages b opportunity src dst idx upd).events[2]? =
      some (MoveEvent.processRequirements (stampedOpportunity opportunity dst upd) dst)
    ∧ (upd = none → persistEvent opportunity dst upd = MoveEvent.apiMove opportunity.id dst)
    ∧ (∀ p, upd = some p →
        persistEvent opportunity dst upd = MoveEvent.apiUpdate opportunity.id (updatePayload dst p))
    ∧ (∀ processedOpt, oracle.process (stampedOpportunity opportunity dst upd) dst = some processedOpt →
        (completeOpportunityMove oracle stages b opportunity src dst idx upd).events[3]? =
          some (MoveEvent.setStages (patchStages stages src dst opportunity.id
            (processedOpt.getD (stampedOpportunity opportunity dst upd)) idx oracle.now))
        ∧ (∀ o, processedOpt = some o →
            processedOpt.getD (stampedOpportunity opportunity dst upd) = o)
        ∧ (processedOpt = none →
            processedOpt.getD (stampedOpportunity opportunity dst upd) =
              stampedOpportunity opportunity dst upd)) := by
  refine ⟨?_, ?_, ?_, ?_, ?_⟩
  · unfold completeOpportunityMove rollbackMove
    simp only [hok, reduceIte]
    cases hpr : oracle.process (stampedOpportunity opportunity dst upd) dst <;>
      cases hrf : refetchStages oracle stages <;> simp [hrf]
  · unfold completeOpportunityMove rollbackMove
    simp only [hok, reduceIte]
    cases hpr : oracle.process (stampedOpportunity opportunity dst upd) dst <;>
      cases hrf : refetchStages oracle stages <;> simp [hrf]
  · intro h
    subst h
    simp [persistEvent]
  · intro p h
    subst h
    simp [persistEvent]
  · intro processedOpt hpr
    refine ⟨?_, ?_, ?_⟩
    · unfold completeOpportunityMove
      simp [hok, hpr]
    · intro o h
      subst h
      simp
    · intro h
      subst h
      simp

/-- Splicing at a valid index places the inserted element at exactly that
index. -/
theorem spliceInsert_getElem {α : Type} (l : List α) (i : Nat) (x : α) (h : i ≤ l.length) :
    (spliceInsert l i x)[i]? = some x := by
  unfold spliceInsert
  rw [List.getElem?_append_right (by simp [List.length_take])]
  simp [List.length_take, Nat.min_eq_left h]

/-- C2: on a successful commit the resulting stage list removes the
opportunity from the source stage's list, inserts the stamped record into
the destination stage's list at exactly the requested index, the inserted
record carries the destination stage id and the fresh timestamp, every
list keeps its length, and a success notification is emitted. -/
theorem move_success_patch (oracle : RemoteOracle) (stages : List Stage) (b : Bool)
    (opportunity : Opportunity) (src dst : String) (idx : Nat)
    (upd : Option OpportunityPatch) (processed : Option Opportunity)
    (hok : persistOk oracle upd = true)
    (hp : oracle.process (stampedOpportunity opportunity dst upd) dst = some processed)
    (hne : src ≠ dst) :
    MoveEvent.toastSuccess ∈ (completeOpportunityMove oracle stages b opportunity src dst idx upd).events
    ∧ (completeOpportunityMove oracle stages b opportunity src dst idx upd).stages.length = stages.length
    ∧ (movedRecord (processed.getD (stampedOpportunity opportunity dst upd)) dst oracle.now).stageId = dst
    ∧ (movedRecord (processed.getD (stampedOpportunity opportunity dst upd)) dst
        oracle.now).lastStageChangeAt = oracle.now
    ∧ ∀ i : Nat, ∀ s : Stage, stages[i]? = some s →
        (s.id = src →
          (completeOpportunityMove oracle stages b opportunity src dst idx upd).stages[i]? =
            some { s with opportunities := s.opportunities.filter fun o => o.id != opportunity.id }
          ∧ ∀ o ∈ s.opportunities.filter fun o => o.id != opportunity.id, o.id ≠ opportunity.id)
        ∧ (s.id = dst →
          (completeOpportunityMove oracle stages b opportunity src dst idx upd).stages[i]? =
            some { s with
              opportunities := spliceInsert s.opportunities idx
                (movedRecord (processed.getD (stampedOpportunity opportunity dst upd)) dst oracle.now) }
          ∧ (idx ≤ s.opportunities.length →
              (spliceInsert s.opportunities idx
                (movedRecord (processed.getD (stampedOpportunity opportunity dst upd)) dst
                  oracle.now))[idx]? =
              some (movedRecord (processed.getD (stampedOpportunity opportunity dst upd)) dst
                oracle.now))) := by
  have hr : completeOpportunityMove oracle stages b opportunity src dst idx upd =
      { stages := patchStages stages src dst opportunity.id
          (processed.getD (stampedOpportunity opportunity dst upd)) idx oracle.now
        events := [MoveEvent.setDragging true, persistEvent opportunity dst upd,
          MoveEvent.processRequirements (stampedOpportunity opportunity dst upd) dst,
          MoveEvent.setStages (patchStages stages src dst opportunity.id
            (processed.getD (stampedOpportunity opportunity dst upd)) idx oracle.now),
          MoveEvent.toastDismiss, MoveEvent.toastSuccess, MoveEvent.setDragging false]
        success := true } := by
    unfold completeOpportunityMove
    simp [hok, hp]
  refine ⟨?_, ?_, rfl, rfl, ?_⟩
  · rw [hr]
    simp
  · rw [hr]
    simp [patchStages]
  · intro i s hi
    constructor
    · intro hsrc
      refine ⟨?_, ?_⟩
      · rw [hr]
        simp only [patchStages, List.getElem?_map, hi]
        simp [hsrc]
      · intro o ho
        simp only [List.mem_filter, bne_iff_ne, ne_eq] at ho
        exact ho.2
    · intro hdst
      have hnsrc : s.id ≠ src := fun hc => hne (hc.symm.trans hdst)
      refine ⟨?_, ?_⟩
      · rw [hr]
        simp only [patchStages, List.getElem?_map, hi]
        simp [hdst, hne.symm]
      · intro hlen
        exact spliceInsert_getElem _ _ _ hlen

/-- A concrete dialog-supplied patch carrying a win reason. -/
def reasonPatch : OpportunityPatch := { winReason := some (some "best-offer") }

/-- C2 witness: moving `o1` from `s1` to `s2` at index 0 on the
all-success oracle emits the success toast and splices the stamped record
in at index 0. -/
theorem move_success_patch_witness :
    MoveEvent.toastSuccess ∈
      (completeOpportunityMove oracleOk [stageA, stageB] false oppA "s1" "s2" 0 none).events
    ∧ (spliceInsert stageB.opportunities 0
        (movedRecord (stampedOpportunity oppA "s2" none) "s2" 42))[0]? =
      some (movedRecord (stampedOpportunity oppA "s2" none) "s2" 42) :=
  have h := move_success_patch oracleOk [stageA, stageB] false oppA "s1" "s2" 0 none none
    (by decide) (by decide) (by decide)
  ⟨h.1, ((h.2.2.2.2 1 stageB (by decide)).2 (by decide)).2 (by decide)⟩

/-- C4 witness: a commit with a supplied reason patch issues the full
update call (with the spread payload) as event 1 and the requirements
call on the stamped opportunity as event 2. -/
theorem move_commit_step_order_witness :
    (completeOpportunityMove oracleOk [stageA, stageWin] false oppA "s1" "s3" 0
        (some reasonPatch)).events[1]? =
      some (persistEvent oppA "s3" (some reasonPatch))
    ∧ (completeOpportunityMove oracleOk [stageA, stageWin] false oppA "s1" "s3" 0
        (some reasonPatch)).events[2]? =
      some (MoveEvent.processRequirements (stampedOpportunity oppA "s3" (some reasonPatch)) "s3")
    ∧ persistEvent oppA "s3" (some reasonPatch) =
      MoveEvent.apiUpdate oppA.id (updatePayload "s3" reasonPatch) :=
  have h := move_commit_step_order oracleOk [stageA, stageWin] false oppA "s1" "s3" 0
    (some reasonPatch) (by decide)
  ⟨h.1, h.2.1, h.2.2.2.1 reasonPatch rfl⟩

/-- The persistence call event is never a success toast. -/
theorem persistEvent_ne_toastSuccess (opportunity : Opportunity) (dst : String)
    (upd : Option OpportunityPatch) :
    persistEvent opportunity dst upd ≠ MoveEvent.toastSuccess := by
  cases upd <;> simp [persistEvent]

/-- Behaviour of the rollback block for any failure prefix that contains
the error toast and no `setStages` or success toast. -/
theorem rollbackMove_spec (oracle : RemoteOracle) (stages : List Stage) (fe : List MoveEvent)
    (hte : MoveEvent.toastError ∈ fe)
    (hns : ∀ s', MoveEvent.setStages s' ∉ fe)
    (hnsucc : MoveEvent.toastSuccess ∉ fe) :
    (rollbackMove oracle stages fe).success = false
    ∧ MoveEvent.toastError ∈ (rollbackMove oracle stages fe).events
    ∧ MoveEvent.toastSuccess ∉ (rollbackMove oracle stages fe).events
    ∧ (∃ preEvents tailEvents, (rollbackMove oracle stages fe).events =
        preEvents ++ (stages.map fun s => MoveEvent.apiGetByStageId s.id) ++ tailEvents)
    ∧ (∀ fetched, refetchStages oracle stages = some fetched →
        (rollbackMove oracle stages fe).stages = fetched ∧
          MoveEvent.setStages fetched ∈ (rollbackMove oracle stages fe).events)
    ∧ (refetchStages oracle stages = none →
        (rollbackMove oracle stages fe).stages = stages
        ∧ MoveEvent.logRevertError ∈ (rollbackMove oracle stages fe).events
        ∧ ∀ s', MoveEvent.setStages s' ∉ (rollbackMove oracle stages fe).events) := by
  cases hrf : refetchStages oracle stages with
  | none =>
    have hred : rollbackMove oracle stages fe =
        { stages := stages
          events := fe ++ (stages.map fun s => MoveEvent.apiGetByStageId s.id) ++
            [MoveEvent.logRevertError, MoveEvent.setDragging false]
          success := false } := by
      unfold rollbackMove
      rw [hrf]
    rw [hred]
    refine ⟨rfl, by simp [hte], by simp [hnsucc], ⟨fe, _, rfl⟩, ?_, ?_⟩
    · intro fetched hf
      cases hf
    · intro _
      exact ⟨rfl, by simp, fun t => by simp [hns t]⟩
  | some fetched =>
    have hred : rollbackMove oracle stages fe =
        { stages := fetched
          events := fe ++ (stages.map fun s => MoveEvent.apiGetByStageId s.id) ++
            [MoveEvent.setStages fetched, MoveEvent.setDragging false]
          success := false } := by
      unfold rollbackMove
      rw [hrf]
    rw [hred]
    refine ⟨rfl, by simp [hte], by simp [hnsucc], ⟨fe, _, rfl⟩, ?_, ?_⟩
    · intro fetched' hf
      injection hf with he
      subst he
      exact ⟨rfl, by simp⟩
    · intro hcontra
      cases hcontra

/-- C5: on any failed commit (rejected persistence call or throwing
requirements processor) the commit reports failure with an error toast
and no success toast, the trace performs one `getByStageId` call per
stage, a successful resynchronization replaces the local state with the
fetched lists, and a failing resynchronization only logs the revert error
and leaves the local state untouched with no `setStages` at all. -/
theorem move_failure_rollback (oracle : RemoteOracle) (stages : List Stage) (b : Bool)
    (opportunity : Opportunity) (src dst : String) (idx : Nat) (upd : Option OpportunityPatch)
    (hfail : persistOk oracle upd = false
      ∨ oracle.process (stampedOpportunity opportunity dst upd) dst = none) :
    (completeOpportunityMove oracle stages b opportunity src dst idx upd).success = false
    ∧ MoveEvent.toastError ∈ (completeOpportunityMove oracle stages b opportunity src dst idx upd).events
    ∧ MoveEvent.toastSuccess ∉ (completeOpportunityMove oracle stages b opportunity src dst idx upd).events
    ∧ (∃ preEvents tailEvents,
        (completeOpportunityMove oracle stages b opportunity src dst idx upd).events =
          preEvents ++ (stages.map fun s => MoveEvent.apiGetByStageId s.id) ++ tailEvents)
    ∧ (∀ fetched, refetchStages oracle stages = some fetched →
        (completeOpportunityMove oracle stages b opportunity src dst idx upd).stages = fetched
        ∧ MoveEvent.setStages fetched ∈
            (completeOpportunityMove oracle stages b opportunity src dst idx upd).events)
    ∧ (refetchStages oracle stages = none →
        (completeOpportunityMove oracle stages b opportunity src dst idx upd).stages = stages
        ∧ MoveEvent.logRevertError ∈
            (completeOpportunityMove oracle stages b opportunity src dst idx upd).events
        ∧ ∀ s', MoveEvent.setStages s' ∉
            (completeOpportunityMove oracle stages b opportunity src dst idx upd).events) := by
  have hns4 : ∀ t, MoveEvent.setStages t ∉
      [MoveEvent.setDragging true, persistEvent opportunity dst upd,
        MoveEvent.toastDismiss, MoveEvent.toastError] := by
    intro t
    simp [Ne.symm (persistEvent_ne_setStages opportunity dst upd t)]
  have hns5 : ∀ t, MoveEvent.setStages t ∉
      [MoveEvent.setDragging true, persistEvent opportunity dst upd,
        MoveEvent.processRequirements (stampedOpportunity opportunity dst upd) dst,
        MoveEvent.toastDismiss, MoveEvent.toastError] := by
    intro t
    simp [Ne.symm (persistEvent_ne_setStages opportunity dst upd t)]
  have hnsucc4 : MoveEvent.toastSuccess ∉
      [MoveEvent.setDragging true, persistEvent opportunity dst upd,
        MoveEvent.toastDismiss, MoveEvent.toastError] := by
    simp [Ne.symm (persistEvent_ne_toastSuccess opportunity dst upd)]
  have hnsucc5 : MoveEvent.toastSuccess ∉
      [MoveEvent.setDragging true, persistEvent opportunity dst upd,
        MoveEvent.processRequirements (stampedOpportunity opportunity dst upd) dst,
        MoveEvent.toastDismiss, MoveEvent.toastError] := by
    simp [Ne.symm (persistEvent_ne_toastSuccess opportunity dst upd)]
  cases hpk : persistOk oracle upd with
  | false =>
    have hred : completeOpportunityMove oracle stages b opportunity src dst idx upd =
        rollbackMove oracle stages
          [MoveEvent.setDragging true, persistEvent opportunity dst upd,
            MoveEvent.toastDismiss, MoveEvent.toastError] := by
      unfold completeOpportunityMove
      simp [hpk]
    rw [hred]
    exact rollbackMove_spec oracle stages _ (by simp) hns4 hnsucc4
  | true =>
    have hpr : oracle.process (stampedOpportunity opportunity dst upd) dst = none := by
      rcases hfail with hc | hc
      · rw [hpk] at hc
        cases hc
      · exact hc
    have hred : completeOpportunityMove oracle stages b opportunity src dst idx upd =
        rollbackMove oracle stages
          [MoveEvent.setDragging true, persistEvent opportunity dst upd,
            MoveEvent.processRequirements (stampedOpportunity opportunity dst upd) dst,
            MoveEvent.toastDismiss, MoveEvent.toastError] := by
      unfold completeOpportunityMove
      simp [hpk, hpr]
    rw [hred]
    exact rollbackMove_spec oracle stages _ (by simp) hns5 hnsucc5

/-- C5 witness: a concrete failing move emits the error toast and, after
a successful resynchronization, restores the backend lists. -/
theorem move_failure_rollback_witness :
    (completeOpportunityMove oracleMoveFail [stageA, stageB] false oppA "s1" "s2" 0 none).success = false
    ∧ MoveEvent.toastError ∈
        (completeOpportunityMove oracleMoveFail [stageA, stageB] false oppA "s1" "s2" 0 none).events
    ∧ (completeOpportunityMove oracleMoveFail [stageA, stageB] false oppA "s1" "s2" 0 none).stages =
        [stageA, stageB] :=
  have h := move_failure_rollback oracleMoveFail [stageA, stageB] false oppA "s1" "s2" 0 none
    (Or.inl (by decide))
  ⟨h.1, h.2.1, (h.2.2.2.2.1 [stageA, stageB] (by decide)).1⟩

/-- C9: when the source and destination stage ids coincide, a successful
commit only removes the opportunity (the source branch of the state patch
wins): the resulting stage list filters the opportunity out of that stage
and re-inserts it nowhere, even though the commit reports success. -/
theorem move_same_stage_removes (oracle : RemoteOracle) (stages : List Stage) (b : Bool)
    (opportunity : Opportunity) (src : String) (idx : Nat)
    (upd : Option OpportunityPatch) (processed : Option Opportunity)
    (hok : persistOk oracle upd = true)
    (hp : oracle.process (stampedOpportunity opportunity src upd) src = some processed) :
    (completeOpportunityMove oracle stages b opportunity src src idx upd).stages =
      stages.map (fun s =>
        if s.id = src then
          { s with opportunities := s.opportunities.filter fun o => o.id != opportunity.id }
        else s)
    ∧ (completeOpportunityMove oracle stages b opportunity src src idx upd).success = true := by
  have hr : completeOpportunityMove oracle stages b opportunity src src idx upd =
      { stages := patchStages stages src src opportunity.id
          (processed.getD (stampedOpportunity opportunity src upd)) idx oracle.now
        events := [MoveEvent.setDragging true, persistEvent opportunity src upd,
          MoveEvent.processRequirements (stampedOpportunity opportunity src upd) src,
          MoveEvent.setStages (patchStages stages src src opportunity.id
            (processed.getD (stampedOpportunity opportunity src upd)) idx oracle.now),
          MoveEvent.toastDismiss, MoveEvent.toastSuccess, MoveEvent.setDragging false]
        success := true } := by
    unfold completeOpportunityMove
    simp [hok, hp]
  rw [hr]
  refine ⟨?_, rfl⟩
  simp only [patchStages]
  congr 1
  funext s
  by_cases h : s.id = src <;> simp [h]

/-- C9 witness: a same-stage move of `o1` within `s1` deletes it from the
board even though the commit succeeds. -/
theorem move_same_stage_removes_witness :
    (completeOpportunityMove oracleOk [stageA, stageB] false oppA "s1" "s1" 0 none).stages =
      [{ stageA with opportunities := [] }, stageB]
    ∧ (completeOpportunityMove oracleOk [stageA, stageB] false oppA "s1" "s1" 0 none).success = true :=
  have h := move_same_stage_removes oracleOk [stageA, stageB] false oppA "s1" 0 none none
    (by decide) (by decide)
  ⟨by rw [h.1]; decide, h.2⟩

/-- C10: on a successful commit every stage whose id is neither the source
nor the destination id is returned unchanged (same record, same position,
same opportunity list). -/
theorem move_frame_other_stages (oracle : RemoteOracle) (stages : List Stage) (b : Bool)
    (opportunity : Opportunity) (src dst : String) (idx : Nat)
    (upd : Option OpportunityPatch) (processed : Option Opportunity)
    (hok : persistOk oracle upd = true)
    (hp : oracle.process (stampedOpportunity opportunity dst upd) dst = some processed) :
    ∀ i : Nat, ∀ s : Stage, stages[i]? = some s → s.id ≠ src → s.id ≠ dst →
      (completeOpportunityMove oracle stages b opportunity src dst idx upd).stages[i]? = some s := by
  intro i s hi hns hnd
  have hr : (completeOpportunityMove oracle stages b opportunity src dst idx upd).stages =
      patchStages stages src dst opportunity.id
        (processed.getD (stampedOpportunity opportunity dst upd)) idx oracle.now := by
    unfold completeOpportunityMove
    simp [hok, hp]
  rw [hr]
  simp only [patchStages, List.getElem?_map, hi]
  simp [hns, hnd]

/-- C10 witness: the bystander stage `s3` is untouched by a successful
`s1` to `s2` move. -/
theorem move_frame_other_stages_witness :
    (completeOpportunityMove oracleOk [stageA, stageB, stageWin] false oppA "s1" "s2" 0 none).stages[2]? =
      some stageWin :=
  move_frame_other_stages oracleOk [stageA, stageB, stageWin] false oppA "s1" "s2" 0 none none
    (by decide) (by decide) 2 stageWin (by decide) (by decide) (by decide)

/-- C8: the stage-edit schema makes the win and loss flags mutually
exclusive: a submission with both set to true is rejected (nothing is
persisted), and every persisted submission has at most one of the two
flags set. -/
theorem stage_edit_win_loss_exclusive (v : StageFormValues) :
    (v.isWinStage = some true ∧ v.isLossStage = some true → submitStageEdit v = none)
    ∧ ∀ w, submitStageEdit v = some w →
        ¬ (w.isWinStage = some true ∧ w.isLossStage = some true) := by
  constructor
  · rintro ⟨hw, hl⟩
    have hrej : formSchemaAccepts v = false := by
      simp [formSchemaAccepts, hw, hl]
    simp [submitStageEdit, hrej]
  · intro w h
    cases ha : formSchemaAccepts v with
    | false => simp [submitStageEdit, ha] at h
    | true =>
      simp [submitStageEdit, ha] at h
      subst h
      rintro ⟨hw, hl⟩
      simp [formSchemaAccepts, hw, hl] at ha

/-- A concrete stage-edit submission with both exclusive flags set. -/
def stageFormBothFlags : StageFormValues :=
  { name := "Fechado", description := none, color := "#a1b2c3"
    isWinStage := some true, isLossStage := some true }

/-- C8 witness: submitting a form with both flags set persists nothing. -/
theorem stage_edit_win_loss_exclusive_witness :
    submitStageEdit stageFormBothFlags = none :=
  (stage_edit_win_loss_exclusive stageFormBothFlags).1 ⟨rfl, rfl⟩
